import Mathlib

/-
Verification of the SecNex bin-api request reflector and its observability
middleware, shallowly embedded from the Go sources:

  * server/server.go  : HandleRequest (the request reflector), Healthz, Start
  * logger/http.go    : LogHTTPRequest (middleware), responseWriter, FormatHTTPLog

Conventions of the embedding:

  * Go `interface\x7b\x7d` values produced by json.Unmarshal are modelled by the
    inductive type `Json` (a sum over null / bool / number / string / array /
    object), objects as association lists keyed by strings.
  * The handler's effects on the http.ResponseWriter (header writes, status
    writes, body writes) and its calls to logger.LogError (which reports to the
    external monitoring sink) are modelled as an emitted trace of `HEvent`s,
    in the order the Go code performs them.
  * `json.Unmarshal` and `json.NewEncoder(w).Encode` are external library
    calls; they enter the embedding as parameters: `unmarshal` maps the body
    bytes to either a parsed value or a parse-error text, and `enc` maps the
    response value to the bytes actually written plus an optional error, the
    error being exactly the value the Go code discards at server.go:98.
-/

set_option autoImplicit false

namespace BinApi

/-- Generic JSON value, the image of Go's json.Unmarshal into interface\x7b\x7d.
Numbers are abstracted as integers; no claim computes with numeric payloads. -/
inductive Json where
  | null : Json
  | bool (b : Bool) : Json
  | num (n : Int) : Json
  | str (s : String) : Json
  | arr (xs : List Json) : Json
  | obj (fields : List (String × Json)) : Json

/-- Field lookup in a JSON object (first match, as in an association list);
`none` on non-objects and missing keys. -/
def lookupField : Json → String → Option Json
  | Json.obj fields, k => fields.lookup k
  | _, _ => none

/-- Top-level key list of a JSON object (empty for non-objects). -/
def fieldNames : Json → List String
  | Json.obj fields => fields.map Prod.fst
  | _ => []

/-- State of `r.Body` as observed by HandleRequest (server.go:42-51): Go's
`r.Body == nil`, an io.ReadAll failure carrying the error text, or the bytes
read. -/
inductive BodySource where
  | noBody : BodySource
  | readError (msg : String) : BodySource
  | bytes (b : List UInt8) : BodySource

/-- The parts of an inbound http.Request that HandleRequest and the router
read: method (matched by no handler — HandleFunc registers for all methods),
URL path, body, the header map `r.Header` and the parsed query map
`r.URL.Query()`, both as association lists name ↦ values-in-order. -/
structure Request where
  method : String
  path : String
  body : BodySource
  headers : List (String × List String)
  queries : List (String × List String)

/-- One observable step performed by a handler: setting a response header,
committing a status code, writing body bytes, or calling logger.LogError
(which sends an error-level event to the monitoring sink); `logError` carries
the Go error's text and the accompanying message. -/
inductive HEvent where
  | setHeader (name value : String) : HEvent
  | writeHeader (status : Nat) : HEvent
  | write (bytes : String) : HEvent
  | logError (errText message : String) : HEvent
deriving DecidableEq

/-- Go's http.Error helper as called at server.go:49 and server.go:59: sets
the plain-text content type and nosniff headers, writes the status code, then
writes the message followed by a newline (fmt.Fprintln). -/
def httpError (msg : String) (code : Nat) : List HEvent :=
  [ HEvent.setHeader "Content-Type" "text/plain; charset=utf-8",
    HEvent.setHeader "X-Content-Type-Options" "nosniff",
    HEvent.writeHeader code,
    HEvent.write (msg ++ "\n") ]

/-- The scalar-vs-array collapsing rule of server.go:73-77 and 84-88: a
one-element value list is stored as the bare string, anything else as the
ordered array of strings. -/
def collapse : List String → Json
  | [v] => Json.str v
  | vs => Json.arr (vs.map Json.str)

/-- The `headers` object built at server.go:71-78. -/
def headersJson (r : Request) : Json :=
  Json.obj (r.headers.map (fun p => (p.1, collapse p.2)))

/-- The `queries` object built at server.go:82-89. -/
def queriesJson (r : Request) : Json :=
  Json.obj (r.queries.map (fun p => (p.1, collapse p.2)))

/-- The four-field response map assembled at server.go:39-93 with `bodyVal`
the value stored under "body". -/
def reflectResponse (bodyVal : Json) (r : Request) : Json :=
  Json.obj [ ("body", bodyVal),
             ("headers", headersJson r),
             ("queries", queriesJson r),
             ("params", Json.obj []) ]

/-- The success tail of HandleRequest (server.go:95-98): Content-Type is set,
then status 200 is written, then the encoder's output is written; the
encoder's error return is discarded (only the first component is used). -/
def successEvents (enc : Json → String × Option String) (bodyVal : Json)
    (r : Request) : List HEvent :=
  [ HEvent.setHeader "Content-Type" "application/json",
    HEvent.writeHeader 200,
    HEvent.write (enc (reflectResponse bodyVal r)).1 ]

/-- HandleRequest (server.go:36-99) as a trace of observable events.
`unmarshal` stands for json.Unmarshal on the body bytes, `enc` for
json.NewEncoder(w).Encode on the response map. -/
def HandleRequest (unmarshal : List UInt8 → Except String Json)
    (enc : Json → String × Option String) (r : Request) : List HEvent :=
  match r.body with
  | BodySource.noBody => successEvents enc (Json.obj []) r
  | BodySource.readError msg =>
      HEvent.logError msg "Failed to read request body" :: httpError msg 500
  | BodySource.bytes b =>
      if b.length > 0 then
        match unmarshal b with
        | Except.error e =>
            HEvent.logError e "Failed to parse JSON body" :: httpError e 500
        | Except.ok bodyData => successEvents enc bodyData r
      else successEvents enc (Json.obj []) r

/-- The value HandleRequest stores under "body" when it reaches the success
path, and `none` when it takes an error return: mirrors the branching of
server.go:42-68. -/
def parsedBody (unmarshal : List UInt8 → Except String Json) (r : Request) :
    Option Json :=
  match r.body with
  | BodySource.noBody => some (Json.obj [])
  | BodySource.readError _ => none
  | BodySource.bytes b =>
      if b.length > 0 then (unmarshal b).toOption else some (Json.obj [])

/-- Healthz (server.go:101-104): writes status 200 then the bytes "OK". -/
def Healthz : List HEvent :=
  [ HEvent.writeHeader 200, HEvent.write "OK" ]

/-- The routing installed in Start (server.go:117-119): the mux sends the
exact path "/healthz" to Healthz and every other path (pattern "/") to
HandleRequest, for every method. -/
def serve (unmarshal : List UInt8 → Except String Json)
    (enc : Json → String × Option String) (r : Request) : List HEvent :=
  if r.path = "/healthz" then Healthz else HandleRequest unmarshal enc r

/-
Observability middleware, from logger/http.go.
-/

/-- State of the responseWriter wrapper (logger/http.go:392-396): last status
code set and cumulative size; int64 size modelled as Int. -/
structure RWState where
  statusCode : Nat
  size : Int
deriving DecidableEq

/-- Initial wrapper state installed at logger/http.go:170-173: statusCode
starts at http.StatusOK, size at its zero value. -/
def rwInit : RWState :=
  { statusCode := 200, size := 0 }

/-- One call the inner handler makes on the wrapper: WriteHeader with a code,
or Write with bytes, `reported` being the byte count the underlying
ResponseWriter's Write returns for that call. -/
inductive WOp where
  | writeHeader (code : Nat) : WOp
  | write (bytes : String) (reported : Nat) : WOp
deriving DecidableEq

/-- A call forwarded to the real ResponseWriter underneath the wrapper. -/
inductive FwdCall where
  | writeHeader (code : Nat) : FwdCall
  | write (bytes : String) : FwdCall
deriving DecidableEq

/-- The two wrapper methods (logger/http.go:399-409): WriteHeader records the
code then forwards it unchanged; Write forwards the bytes unchanged and adds
the underlying writer's reported count to the recorded size. -/
def rwStep (s : RWState) : WOp → RWState × FwdCall
  | WOp.writeHeader code => ({ s with statusCode := code }, FwdCall.writeHeader code)
  | WOp.write b reported =>
      ({ s with size := s.size + Int.ofNat reported }, FwdCall.write b)

/-- Run a sequence of wrapper calls from a state, collecting the forwarded
calls in order. -/
def rwRunFrom (s : RWState) : List WOp → RWState × List FwdCall
  | [] => (s, [])
  | op :: ops =>
      let sc := rwStep s op
      let rest := rwRunFrom sc.1 ops
      (rest.1, sc.2 :: rest.2)

/-- Final wrapper state after a request's calls, starting from rwInit. -/
def rwRun (ops : List WOp) : RWState :=
  (rwRunFrom rwInit ops).1

/-- Forwarded-call trace of a request, starting from rwInit. -/
def rwForwarded (ops : List WOp) : List FwdCall :=
  (rwRunFrom rwInit ops).2

/-- HTTPLogEntry (logger/http.go:106-119); the error field holds the error's
text, response time in nanoseconds. -/
structure HTTPLogEntry where
  host : String
  remoteAddr : String
  method : String
  path : String
  protocol : String
  statusCode : Nat
  responseSize : Int
  responseTimeNs : Nat
  userAgent : String
  referer : String
  error : Option String
deriving DecidableEq

/-- Left-pad a numeral to three digits. -/
def pad3 (n : Nat) : String :=
  if n < 10 then "00" ++ toString n
  else if n < 100 then "0" ++ toString n
  else toString n

/-- Nanoseconds rendered as seconds with three decimals, modelling the
`%.3f` of entry.ResponseTime.Seconds() at logger/http.go:128,137 (rounding to
nearest millisecond). -/
def formatSeconds3 (ns : Nat) : String :=
  let ms := (ns + 500000) / 1000000
  toString (ms / 1000) ++ "." ++ pad3 (ms % 1000)

/-- FormatHTTPLog (logger/http.go:122-141): the Nginx-like line, with the
trailing error clause only when an error was captured. -/
def FormatHTTPLog (entry : HTTPLogEntry) : String :=
  let errorStr := match entry.error with
    | some msg => " error=\"" ++ msg ++ "\""
    | none => ""
  entry.remoteAddr ++ " - - \"" ++ entry.method ++ " " ++ entry.path ++ " "
    ++ entry.protocol ++ "\" " ++ toString entry.statusCode ++ " "
    ++ toString entry.responseSize ++ " \"" ++ entry.referer ++ "\" \""
    ++ entry.userAgent ++ "\" " ++ formatSeconds3 entry.responseTimeNs
    ++ " (" ++ entry.host ++ ")" ++ errorStr

/-- Severity level of an event sent to the monitoring sink. -/
inductive SinkLevel where
  | lvlError : SinkLevel
  | lvlWarning : SinkLevel
  | lvlInfo : SinkLevel
deriving DecidableEq

/-- An event delivered to the external monitoring sink: its level, whether it
was a captured exception (as opposed to a captured message), its message or
error text, its tags, and the keys/values of its attached "request" context
(context values rendered as strings). -/
structure SinkEvent where
  level : SinkLevel
  isException : Bool
  message : String
  tags : List (String × String)
  requestContext : List (String × String)
deriving DecidableEq

/-- Request metadata the middleware reads (logger/http.go:150-226). -/
structure ReqMeta where
  method : String
  path : String
  urlStr : String
  protocol : String
  remoteAddr : String
  userAgent : String
  referer : String
  host : String
deriving DecidableEq

/-- Payload of a panic raised by the inner handler: either a Go error value
(carrying its Error() text) or any other value (carrying its `%v`
rendering). -/
inductive PanicPayload where
  | errPayload (msg : String) : PanicPayload
  | nonError (desc : String) : PanicPayload
deriving DecidableEq

/-- The error value the recovery block synthesizes at logger/http.go:180-184:
an error payload is used as-is, any other payload is wrapped into an error
whose text is "panic: " followed by the payload's rendering. -/
def panicPayloadError : PanicPayload → String
  | PanicPayload.errPayload msg => msg
  | PanicPayload.nonError desc => "panic: " ++ desc

/-- The event the recovery block sends (logger/http.go:186-197): error level,
tag panic=true, request context with method, url, user agent and remote
address, capturing the synthesized exception. -/
def panicEvent (m : ReqMeta) (errText : String) : SinkEvent :=
  { level := SinkLevel.lvlError,
    isException := true,
    message := errText,
    tags := [("panic", "true")],
    requestContext :=
      [ ("method", m.method), ("url", m.urlStr),
        ("user_agent", m.userAgent), ("remote_ip", m.remoteAddr) ] }

/-- The server-error event of logger/http.go:244-275: error level, tagged as
a server error, full request context including timing and response size;
captures the request error as an exception when present, else a synthesized
"Server Error" message. -/
def serverErrorEvent (m : ReqMeta) (elapsedNs : Nat) (st : RWState)
    (requestError : Option String) : SinkEvent :=
  let responseTimeMs := toString (elapsedNs / 1000000)
  { level := SinkLevel.lvlError,
    isException := requestError.isSome,
    message :=
      match requestError with
      | some e => e
      | none =>
          "Server Error: " ++ m.method ++ " " ++ m.path ++ " -> "
            ++ toString st.statusCode,
    tags :=
      [ ("issue_type", "server_error"), ("source", "http_handler"),
        ("http.status_code", toString st.statusCode),
        ("http.method", m.method), ("http.path", m.path),
        ("response_time_ms", responseTimeMs) ],
    requestContext :=
      [ ("method", m.method), ("url", m.urlStr),
        ("user_agent", m.userAgent), ("remote_ip", m.remoteAddr),
        ("response_time_ms", responseTimeMs),
        ("response_time_ns", toString elapsedNs),
        ("response_size", toString st.size),
        ("host", m.host), ("status_code", toString st.statusCode) ] }

/-- How one invocation of the inner handler behaves: it performs a sequence
of wrapper calls and then either returns normally or panics with a payload. -/
inductive HandlerOutcome where
  | normal (ops : List WOp) : HandlerOutcome
  | panics (ops : List WOp) (payload : PanicPayload) : HandlerOutcome
deriving DecidableEq

/-- Everything observable about one pass through the middleware: the events
sent to the monitoring sink, the request log entries emitted via
log.Println(FormatHTTPLog(...)), the wrapper's final status code and size,
and the payload re-raised if a panic was recovered. -/
structure MWResult where
  sink : List SinkEvent
  logEntries : List HTTPLogEntry
  finalStatus : Nat
  finalSize : Int
  repanic : Option PanicPayload
deriving DecidableEq

/-- LogHTTPRequest (logger/http.go:144-287) for one request.

On a panic (logger/http.go:178-207): the deferred function recovers,
synthesizes `requestError`, sends the panic event, forces the wrapper's
status code to 500 and re-raises; because the panic propagates out of
next.ServeHTTP, the code at logger/http.go:212-285 (log entry construction,
server-error reporting, log.Println) never runs.

On normal completion: `requestError` was never assigned, so it is nil when
line 241 computes alertAlreadySent; the branching of logger/http.go:234-281
is kept verbatim. -/
def LogHTTPRequest (m : ReqMeta) (elapsedNs : Nat)
    (outcome : HandlerOutcome) : MWResult :=
  match outcome with
  | HandlerOutcome.panics ops payload =>
      let requestError := panicPayloadError payload
      let st := rwRun ops
      { sink := [panicEvent m requestError],
        logEntries := [],
        finalStatus := 500,
        finalSize := st.size,
        repanic := some payload }
  | HandlerOutcome.normal ops =>
      let st := rwRun ops
      let requestError : Option String := none
      let entry : HTTPLogEntry :=
        { host := m.host, remoteAddr := m.remoteAddr, method := m.method,
          path := m.path, protocol := m.protocol,
          statusCode := st.statusCode, responseSize := st.size,
          responseTimeNs := elapsedNs, userAgent := m.userAgent,
          referer := m.referer, error := requestError }
      let sinkEvents : List SinkEvent :=
        if 500 ≤ st.statusCode then
          let alertAlreadySent := requestError.isNone
          if alertAlreadySent = false then
            [serverErrorEvent m elapsedNs st requestError]
          else []
        else []
      { sink := sinkEvents,
        logEntries := [entry],
        finalStatus := st.statusCode,
        finalSize := st.size,
        repanic := none }

/-
Helper lemmas.
-/

/-- Whenever HandleRequest reaches the success path — i.e. parsedBody yields a
value — its event trace is exactly: JSON content type, status 200, then the
encoder's written output. -/
theorem handle_success_of_parsedBody (unmarshal : List UInt8 → Except String Json)
    (enc : Json → String × Option String) (r : Request) (v : Json)
    (h : parsedBody unmarshal r = some v) :
    HandleRequest unmarshal enc r =
      [ HEvent.setHeader "Content-Type" "application/json",
        HEvent.writeHeader 200,
        HEvent.write (enc (reflectResponse v r)).1 ] := by
  cases hb : r.body with
  | noBody =>
      simp only [parsedBody, hb, Option.some.injEq] at h
      subst h
      simp [HandleRequest, hb, successEvents]
  | readError msg =>
      simp [parsedBody, hb] at h
  | bytes b =>
      by_cases hlen : b.length > 0
      · cases hu : unmarshal b with
        | error e =>
            simp [parsedBody, hb, hlen, hu, Except.toOption] at h
        | ok w =>
            have hw : w = v := by
              simp [parsedBody, hb, hlen, hu, Except.toOption] at h
              exact h
            subst hw
            simp [HandleRequest, hb, hlen, hu, successEvents]
      · have hv : v = Json.obj [] := by
          simp only [parsedBody, hb, if_neg hlen, Option.some.injEq] at h
          exact h.symm
        subst hv
        simp [HandleRequest, hb, hlen, successEvents]

/-- Looking a key up in an association list mapped through a value
transformer returns the transformed value of that key's entry, provided the
keys are distinct. -/
theorem lookup_map_value (f : List String → Json)
    (l : List (String × List String)) (k : String) (vs : List String)
    (hnd : (l.map Prod.fst).Nodup) (hmem : (k, vs) ∈ l) :
    (l.map (fun p => (p.1, f p.2))).lookup k = some (f vs) := by
  induction l with
  | nil => cases hmem
  | cons hd tl ih =>
    rcases List.mem_cons.mp hmem with heq | hmem'
    · subst heq
      simp [List.lookup]
    · have hk : k ∈ tl.map Prod.fst :=
        List.mem_map.mpr ⟨(k, vs), hmem', rfl⟩
      have hne : (k == hd.1) = false := by
        have : hd.1 ≠ k := by
          intro hcontra
          exact (List.nodup_cons.mp (by simpa using hnd)).1 (hcontra ▸ hk)
        simp [this.symm]
      have htl : (tl.map (fun p => (p.1, f p.2))).lookup k = some (f vs) :=
        ih (List.nodup_cons.mp (by simpa using hnd)).2 hmem'
      simpa [List.lookup, hne] using htl

/-- A value list of length greater than one collapses to the ordered array. -/
theorem collapse_of_multi (vs : List String) (h : 1 < vs.length) :
    collapse vs = Json.arr (vs.map Json.str) := by
  match vs with
  | [] => simp at h
  | [a] => simp at h
  | a :: b :: t => rfl

/-
Claim theorems.
-/

/-- Claim C1: for every request whose body is a syntactically valid JSON
value (the unmarshaller returns a parsed value `v`), HandleRequest responds
with status 200 and the response's "body" field is exactly `v` — the parsed
input is carried into the reflected response unchanged. -/
theorem c1_valid_json_reflected (unmarshal : List UInt8 → Except String Json)
    (enc : Json → String × Option String) (r : Request) (b : List UInt8)
    (v : Json) (hb : r.body = BodySource.bytes b) (hlen : 0 < b.length)
    (hok : unmarshal b = Except.ok v) :
    HandleRequest unmarshal enc r =
      [ HEvent.setHeader "Content-Type" "application/json",
        HEvent.writeHeader 200,
        HEvent.write (enc (reflectResponse v r)).1 ]
    ∧ lookupField (reflectResponse v r) "body" = some v := by
  refine ⟨?_, rfl⟩
  apply handle_success_of_parsedBody
  simp [parsedBody, hb, hlen, hok, Except.toOption]

/-- Witness for C1 at a concrete request whose one-byte body parses to the
JSON string "x". -/
theorem c1_valid_json_reflected_witness :
    HandleRequest
        (fun bs => if bs.length > 0 then Except.ok (Json.str "x")
                   else Except.error "empty")
        (fun _ => ("", none))
        { method := "POST", path := "/", body := BodySource.bytes [123],
          headers := [], queries := [] }
      = [ HEvent.setHeader "Content-Type" "application/json",
          HEvent.writeHeader 200,
          HEvent.write "" ]
    ∧ lookupField
        (reflectResponse (Json.str "x")
          { method := "POST", path := "/", body := BodySource.bytes [123],
            headers := [], queries := [] }) "body"
      = some (Json.str "x") :=
  c1_valid_json_reflected _ _ _ [123] (Json.str "x") rfl (by decide) rfl

/-- Claim C3: for every request whose body is absent (nil) or empty (zero
bytes), HandleRequest takes the success path and the response's "body" field
is present and equal to the empty JSON object. -/
theorem c3_empty_body_is_empty_object
    (unmarshal : List UInt8 → Except String Json)
    (enc : Json → String × Option String) (r : Request)
    (h : r.body = BodySource.noBody ∨ r.body = BodySource.bytes []) :
    HandleRequest unmarshal enc r =
      [ HEvent.setHeader "Content-Type" "application/json",
        HEvent.writeHeader 200,
        HEvent.write (enc (reflectResponse (Json.obj []) r)).1 ]
    ∧ lookupField (reflectResponse (Json.obj []) r) "body"
        = some (Json.obj []) := by
  refine ⟨?_, rfl⟩
  apply handle_success_of_parsedBody
  rcases h with h | h <;> simp [parsedBody, h]

/-- Witness for C3 at a request carrying a zero-byte body. -/
theorem c3_empty_body_is_empty_object_witness :
    HandleRequest (fun _ => Except.error "never") (fun _ => ("", none))
        { method := "GET", path := "/", body := BodySource.bytes [],
          headers := [], queries := [] }
      = [ HEvent.setHeader "Content-Type" "application/json",
          HEvent.writeHeader 200,
          HEvent.write "" ]
    ∧ lookupField
        (reflectResponse (Json.obj [])
          { method := "GET", path := "/", body := BodySource.bytes [],
            headers := [], queries := [] }) "body"
      = some (Json.obj []) :=
  c3_empty_body_is_empty_object _ _ _ (Or.inr rfl)

/-- Claim C4: for every request with a non-empty body the unmarshaller
rejects with error text `e`, HandleRequest reports the parse failure to the
sink, sets the plain-text content type, writes status 500 and writes the
parser's error text (newline-terminated by the plain-text error helper) as
the whole body, which is never empty; no JSON response is produced. -/
theorem c4_malformed_body_500 (unmarshal : List UInt8 → Except String Json)
    (enc : Json → String × Option String) (r : Request) (b : List UInt8)
    (e : String) (hb : r.body = BodySource.bytes b) (hlen : 0 < b.length)
    (herr : unmarshal b = Except.error e) :
    HandleRequest unmarshal enc r =
      [ HEvent.logError e "Failed to parse JSON body",
        HEvent.setHeader "Content-Type" "text/plain; charset=utf-8",
        HEvent.setHeader "X-Content-Type-Options" "nosniff",
        HEvent.writeHeader 500,
        HEvent.write (e ++ "\n") ]
    ∧ 0 < (e ++ "\n").length := by
  constructor
  · simp [HandleRequest, hb, hlen, herr, httpError]
  · have hl : (e ++ "\n").length = e.length + 1 := by
      simp [String.length_append]
      decide
    omega

/-- Witness for C4 at a request whose body bytes spell "not-json". -/
theorem c4_malformed_body_500_witness :
    HandleRequest (fun _ => Except.error "invalid character")
        (fun _ => ("", none))
        { method := "POST", path := "/",
          body := BodySource.bytes [110, 111, 116],
          headers := [], queries := [] }
      = [ HEvent.logError "invalid character" "Failed to parse JSON body",
          HEvent.setHeader "Content-Type" "text/plain; charset=utf-8",
          HEvent.setHeader "X-Content-Type-Options" "nosniff",
          HEvent.writeHeader 500,
          HEvent.write ("invalid character" ++ "\n") ]
    ∧ 0 < (("invalid character" ++ "\n") : String).length :=
  c4_malformed_body_500 _ _ _ [110, 111, 116] "invalid character" rfl
    (by decide) rfl

/-- Claim C5: for every successfully handled request, the response value is a
JSON object whose top-level keys are exactly "body", "headers", "queries",
"params", with "params" the empty object; the trace sets
Content-Type: application/json first, then writes status 200, then the body. -/
theorem c5_success_shape (unmarshal : List UInt8 → Except String Json)
    (enc : Json → String × Option String) (r : Request) (v : Json)
    (h : parsedBody unmarshal r = some v) :
    HandleRequest unmarshal enc r =
      [ HEvent.setHeader "Content-Type" "application/json",
        HEvent.writeHeader 200,
        HEvent.write (enc (reflectResponse v r)).1 ]
    ∧ fieldNames (reflectResponse v r)
        = ["body", "headers", "queries", "params"]
    ∧ lookupField (reflectResponse v r) "params" = some (Json.obj []) :=
  ⟨handle_success_of_parsedBody unmarshal enc r v h, rfl, rfl⟩

/-- Witness for C5 at a request with no body. -/
theorem c5_success_shape_witness :
    HandleRequest (fun _ => Except.error "never") (fun _ => ("", none))
        { method := "GET", path := "/", body := BodySource.noBody,
          headers := [], queries := [] }
      = [ HEvent.setHeader "Content-Type" "application/json",
          HEvent.writeHeader 200,
          HEvent.write "" ]
    ∧ fieldNames
        (reflectResponse (Json.obj [])
          { method := "GET", path := "/", body := BodySource.noBody,
            headers := [], queries := [] })
      = ["body", "headers", "queries", "params"]
    ∧ lookupField
        (reflectResponse (Json.obj [])
          { method := "GET", path := "/", body := BodySource.noBody,
            headers := [], queries := [] }) "params"
      = some (Json.obj []) :=
  c5_success_shape _ _ _ (Json.obj []) rfl

/-- Claim C9: every request routed to path "/healthz" — whatever its method,
headers, body or query parameters — produces exactly status 200 with body
"OK", and the reflector's JSON content type never appears in the trace. -/
theorem c9_healthz_ok (unmarshal : List UInt8 → Except String Json)
    (enc : Json → String × Option String) (r : Request)
    (h : r.path = "/healthz") :
    serve unmarshal enc r = [HEvent.writeHeader 200, HEvent.write "OK"]
    ∧ HEvent.setHeader "Content-Type" "application/json"
        ∉ serve unmarshal enc r := by
  have hs : serve unmarshal enc r = Healthz := by simp [serve, h]
  refine ⟨hs, ?_⟩
  rw [hs]
  decide

/-- Witness for C9 at a GET request to /healthz with headers, body and query
all supplied. -/
theorem c9_healthz_ok_witness :
    serve (fun _ => Except.error "never") (fun _ => ("", none))
        { method := "GET", path := "/healthz",
          body := BodySource.bytes [110],
          headers := [("X-Test", ["1"])], queries := [("a", ["1"])] }
      = [HEvent.writeHeader 200, HEvent.write "OK"]
    ∧ HEvent.setHeader "Content-Type" "application/json"
        ∉ serve (fun _ => Except.error "never") (fun _ => ("", none))
          { method := "GET", path := "/healthz",
            body := BodySource.bytes [110],
            headers := [("X-Test", ["1"])], queries := [("a", ["1"])] } :=
  c9_healthz_ok _ _ _ rfl

/-- Claim C10: on the reflector's success path the 200 status is committed
before the serialized output is written, and the encoder's error return is
silently discarded: the trace never depends on the error component, and with
an encoder that fails after writing nothing the response is an empty body
under status 200, with no error status, no LogError call and hence no
monitoring-sink report. -/
theorem c10_encode_error_discarded
    (unmarshal : List UInt8 → Except String Json) (r : Request) (v : Json)
    (encErr : String) (h : parsedBody unmarshal r = some v) :
    (∀ enc enc2 : Json → String × Option String,
        (∀ j, (enc j).1 = (enc2 j).1) →
        HandleRequest unmarshal enc r = HandleRequest unmarshal enc2 r)
    ∧ HandleRequest unmarshal (fun _ => ("", some encErr)) r =
        [ HEvent.setHeader "Content-Type" "application/json",
          HEvent.writeHeader 200,
          HEvent.write "" ]
    ∧ (∀ e msg, HEvent.logError e msg ∉
        HandleRequest unmarshal (fun _ => ("", some encErr)) r)
    ∧ (∀ st, HEvent.writeHeader st ∈
        HandleRequest unmarshal (fun _ => ("", some encErr)) r → st = 200) := by
  have htr : ∀ enc : Json → String × Option String,
      HandleRequest unmarshal enc r =
        [ HEvent.setHeader "Content-Type" "application/json",
          HEvent.writeHeader 200,
          HEvent.write (enc (reflectResponse v r)).1 ] :=
    fun enc => handle_success_of_parsedBody unmarshal enc r v h
  refine ⟨?_, ?_, ?_, ?_⟩
  · intro enc enc2 hsame
    rw [htr enc, htr enc2, hsame]
  · simpa using htr (fun _ => ("", some encErr))
  · intro e msg
    rw [htr]
    simp
  · intro st hmem
    rw [htr] at hmem
    simp at hmem
    omega

/-- Witness for C10 at a body-less request with an encoder that reports a
write failure. -/
theorem c10_encode_error_discarded_witness :
    (∀ enc enc2 : Json → String × Option String,
        (∀ j, (enc j).1 = (enc2 j).1) →
        HandleRequest (fun _ => Except.error "never") enc
            { method := "GET", path := "/", body := BodySource.noBody,
              headers := [], queries := [] }
          = HandleRequest (fun _ => Except.error "never") enc2
            { method := "GET", path := "/", body := BodySource.noBody,
              headers := [], queries := [] })
    ∧ HandleRequest (fun _ => Except.error "never")
        (fun _ => ("", some "connection reset"))
        { method := "GET", path := "/", body := BodySource.noBody,
          headers := [], queries := [] }
      = [ HEvent.setHeader "Content-Type" "application/json",
          HEvent.writeHeader 200,
          HEvent.write "" ]
    ∧ (∀ e msg, HEvent.logError e msg ∉
        HandleRequest (fun _ => Except.error "never")
          (fun _ => ("", some "connection reset"))
          { method := "GET", path := "/", body := BodySource.noBody,
            headers := [], queries := [] })
    ∧ (∀ st, HEvent.writeHeader st ∈
        HandleRequest (fun _ => Except.error "never")
          (fun _ => ("", some "connection reset"))
          { method := "GET", path := "/", body := BodySource.noBody,
            headers := [], queries := [] } → st = 200) :=
  c10_encode_error_discarded _ _ (Json.obj []) "connection reset" rfl

/-- Claim C2: in the reflected response the "headers" and "queries" fields
hold the collapsed maps, and for every name with distinct keys: a name
supplied with exactly one value maps to that value as a bare JSON string,
while a name supplied with more than one value maps to the ordered array of
its values. -/
theorem c2_single_multi_collapse (bv : Json) (r : Request) (k v : String)
    (vs : List String) :
    lookupField (reflectResponse bv r) "headers" = some (headersJson r)
    ∧ lookupField (reflectResponse bv r) "queries" = some (queriesJson r)
    ∧ ((r.headers.map Prod.fst).Nodup → (k, [v]) ∈ r.headers →
        lookupField (headersJson r) k = some (Json.str v))
    ∧ ((r.headers.map Prod.fst).Nodup → (k, vs) ∈ r.headers →
        1 < vs.length →
        lookupField (headersJson r) k = some (Json.arr (vs.map Json.str)))
    ∧ ((r.queries.map Prod.fst).Nodup → (k, [v]) ∈ r.queries →
        lookupField (queriesJson r) k = some (Json.str v))
    ∧ ((r.queries.map Prod.fst).Nodup → (k, vs) ∈ r.queries →
        1 < vs.length →
        lookupField (queriesJson r) k = some (Json.arr (vs.map Json.str))) := by
  refine ⟨rfl, rfl, ?_, ?_, ?_, ?_⟩
  · intro hnd hmem
    exact lookup_map_value collapse r.headers k [v] hnd hmem
  · intro hnd hmem hl
    have := lookup_map_value collapse r.headers k vs hnd hmem
    rwa [collapse_of_multi vs hl] at this
  · intro hnd hmem
    exact lookup_map_value collapse r.queries k [v] hnd hmem
  · intro hnd hmem hl
    have := lookup_map_value collapse r.queries k vs hnd hmem
    rwa [collapse_of_multi vs hl] at this

/-- A concrete request carrying one single-valued and one two-valued entry in
both its header map and its query map. -/
def reqMulti : Request :=
  { method := "GET", path := "/x", body := BodySource.noBody,
    headers := [("A", ["1"]), ("B", ["1", "2"])],
    queries := [("a", ["x"]), ("b", ["y", "z"])] }

/-- Witness for C2 on reqMulti: the single-valued names collapse to bare
strings, the two-valued names to ordered arrays. -/
theorem c2_single_multi_collapse_witness :
    lookupField (headersJson reqMulti) "A" = some (Json.str "1")
    ∧ lookupField (headersJson reqMulti) "B"
        = some (Json.arr [Json.str "1", Json.str "2"])
    ∧ lookupField (queriesJson reqMulti) "a" = some (Json.str "x")
    ∧ lookupField (queriesJson reqMulti) "b"
        = some (Json.arr [Json.str "y", Json.str "z"]) :=
  ⟨(c2_single_multi_collapse (Json.obj []) reqMulti "A" "1" ["1", "2"]).2.2.1
      (by decide) (by decide),
   (c2_single_multi_collapse (Json.obj []) reqMulti "B" "1" ["1", "2"]).2.2.2.1
      (by decide) (by decide) (by decide),
   (c2_single_multi_collapse (Json.obj []) reqMulti "a" "x" ["y", "z"]).2.2.2.2.1
      (by decide) (by decide),
   (c2_single_multi_collapse (Json.obj []) reqMulti "b" "x" ["y", "z"]).2.2.2.2.2
      (by decide) (by decide) (by decide)⟩

/-
Lemmas on the responseWriter wrapper.
-/

/-- The status codes an op sequence explicitly writes. -/
def explicitStatuses (ops : List WOp) : List Nat :=
  ops.filterMap (fun op => match op with
    | WOp.writeHeader code => some code
    | WOp.write _ _ => none)

/-- The last explicitly written status code, or 200 when none was written:
the value the spec says the wrapper must record. -/
def lastExplicitStatus (ops : List WOp) : Nat :=
  (explicitStatuses ops).getLastD 200

/-- The total byte count the underlying sink reports across an op sequence:
the value the spec says the wrapper must record as the size. -/
def totalReported (ops : List WOp) : Int :=
  (ops.map (fun op => match op with
    | WOp.writeHeader _ => (0 : Int)
    | WOp.write _ reported => Int.ofNat reported)).sum

/-- The call each wrapper op must forward unchanged to the real sink. -/
def forwardedOf : WOp → FwdCall
  | WOp.writeHeader code => FwdCall.writeHeader code
  | WOp.write b _ => FwdCall.write b

/-- Running the wrapper from any state leaves as status code the last
explicitly written one, or the start state's if none was written. -/
theorem rwRunFrom_statusCode (ops : List WOp) (s : RWState) :
    ((rwRunFrom s ops).1).statusCode =
      (explicitStatuses ops).getLastD s.statusCode := by
  induction ops generalizing s with
  | nil => rfl
  | cons op ops ih =>
    cases op with
    | writeHeader code =>
        calc ((rwRunFrom s (WOp.writeHeader code :: ops)).1).statusCode
            = ((rwRunFrom { s with statusCode := code } ops).1).statusCode :=
              rfl
          _ = (explicitStatuses ops).getLastD code :=
              ih { s with statusCode := code }
          _ = (code :: explicitStatuses ops).getLastD s.statusCode :=
              (List.getLastD_cons _ _ _).symm
          _ = (explicitStatuses (WOp.writeHeader code :: ops)).getLastD
                s.statusCode := rfl
    | write b rep =>
        calc ((rwRunFrom s (WOp.write b rep :: ops)).1).statusCode
            = ((rwRunFrom { s with size := s.size + Int.ofNat rep }
                ops).1).statusCode := rfl
          _ = (explicitStatuses ops).getLastD s.statusCode :=
              ih { s with size := s.size + Int.ofNat rep }
          _ = (explicitStatuses (WOp.write b rep :: ops)).getLastD
                s.statusCode := rfl

/-- Running the wrapper from any state adds exactly the reported byte counts
to the start state's size. -/
theorem rwRunFrom_size (ops : List WOp) (s : RWState) :
    ((rwRunFrom s ops).1).size = s.size + totalReported ops := by
  induction ops generalizing s with
  | nil => simp [rwRunFrom, totalReported]
  | cons op ops ih =>
    cases op with
    | writeHeader code =>
        have h1 : ((rwRunFrom s (WOp.writeHeader code :: ops)).1).size
            = ((rwRunFrom { s with statusCode := code } ops).1).size := rfl
        have h2 : totalReported (WOp.writeHeader code :: ops)
            = 0 + totalReported ops := by simp [totalReported]
        rw [h1, ih { s with statusCode := code }, h2]
        show s.size + totalReported ops = s.size + (0 + totalReported ops)
        omega
    | write b rep =>
        have h1 : ((rwRunFrom s (WOp.write b rep :: ops)).1).size
            = ((rwRunFrom { s with size := s.size + Int.ofNat rep }
                ops).1).size := rfl
        have h2 : totalReported (WOp.write b rep :: ops)
            = Int.ofNat rep + totalReported ops := by simp [totalReported]
        rw [h1, ih { s with size := s.size + Int.ofNat rep }, h2]
        show s.size + Int.ofNat rep + totalReported ops
            = s.size + (Int.ofNat rep + totalReported ops)
        omega

/-- The wrapper forwards every call unchanged, in order, from any state. -/
theorem rwRunFrom_forwarded (ops : List WOp) (s : RWState) :
    (rwRunFrom s ops).2 = ops.map forwardedOf := by
  induction ops generalizing s with
  | nil => rfl
  | cons op ops ih =>
    cases op with
    | writeHeader code => simp [rwRunFrom, rwStep, forwardedOf, ih]
    | write b rep => simp [rwRunFrom, rwStep, forwardedOf, ih]

/-- Claim C8: the response-capture wrapper starts at status 200; after any
sequence of calls its recorded status is the last explicitly written code
(200 when none), its recorded size is exactly the sum of the byte counts the
underlying sink reported, every call is forwarded unchanged to the real sink,
and when the middleware recovers a panic the captured final status is forced
to 500. -/
theorem c8_response_capture_invariant (ops : List WOp) :
    rwInit.statusCode = 200
    ∧ (rwRun ops).statusCode = lastExplicitStatus ops
    ∧ (rwRun ops).size = totalReported ops
    ∧ rwForwarded ops = ops.map forwardedOf
    ∧ (∀ (m : ReqMeta) (ns : Nat) (ops2 : List WOp) (payload : PanicPayload),
        (LogHTTPRequest m ns (HandlerOutcome.panics ops2 payload)).finalStatus
          = 500) := by
  refine ⟨rfl, ?_, ?_, ?_, ?_⟩
  · simpa [rwRun, lastExplicitStatus, rwInit] using
      rwRunFrom_statusCode ops rwInit
  · simpa [rwRun, rwInit] using rwRunFrom_size ops rwInit
  · exact rwRunFrom_forwarded ops rwInit
  · intro m ns ops2 payload
    rfl

/-
Claims C6 and C7: the middleware's reporting and panic behaviour.
-/

/-- Concrete request metadata used by the middleware counterexamples and
witnesses. -/
def metaEx : ReqMeta :=
  { method := "GET", path := "/x", urlStr := "/x?a=1", protocol := "HTTP/1.1",
    remoteAddr := "127.0.0.1:5000", userAgent := "curl/8.0", referer := "",
    host := "localhost:8081" }

/-- Claim C6 counterexample: a request that completes normally with an
explicit 500 status has final captured status 500, yet the middleware sends
no event at all to the monitoring sink (in particular no error-level event),
because `alertAlreadySent` is computed from the always-nil `requestError` and
so is always true on the normal path. -/
theorem c6_counterexample_normal_500_unreported :
    (LogHTTPRequest metaEx 1000000
        (HandlerOutcome.normal [WOp.writeHeader 500])).finalStatus = 500
    ∧ (LogHTTPRequest metaEx 1000000
        (HandlerOutcome.normal [WOp.writeHeader 500])).sink = [] :=
  ⟨rfl, rfl⟩

/-- Claim C6 (amended): the middleware sends a monitoring-sink event only
while recovering a panic — an error-level event carrying the captured or
synthesized error — and sends nothing on any normal completion, even with
final status 500 or more (it assumes such errors were already reported by the
application); consequently a final status below 400 is never accompanied by
an error- or warning-level middleware event. -/
theorem c6_amended_reporting_policy (m : ReqMeta) (ns : Nat) :
    (∀ (ops : List WOp) (payload : PanicPayload),
        (LogHTTPRequest m ns (HandlerOutcome.panics ops payload)).sink
          = [panicEvent m (panicPayloadError payload)]
        ∧ (panicEvent m (panicPayloadError payload)).level
            = SinkLevel.lvlError)
    ∧ (∀ ops : List WOp,
        (LogHTTPRequest m ns (HandlerOutcome.normal ops)).sink = [])
    ∧ (∀ outcome : HandlerOutcome,
        (LogHTTPRequest m ns outcome).finalStatus < 400 →
        ∀ e ∈ (LogHTTPRequest m ns outcome).sink,
          e.level ≠ SinkLevel.lvlError ∧ e.level ≠ SinkLevel.lvlWarning) := by
  refine ⟨fun ops payload => ⟨rfl, rfl⟩, ?_, ?_⟩
  · intro ops
    simp [LogHTTPRequest]
  · intro outcome hlt e hmem
    cases outcome with
    | panics ops payload =>
        simp [LogHTTPRequest] at hlt
    | normal ops =>
        simp [LogHTTPRequest] at hmem

/-- Witness for the amended C6: on a panic the sink receives exactly the
error-level panic event, and a normal 204 completion sends nothing. -/
theorem c6_amended_reporting_policy_witness :
    (LogHTTPRequest metaEx 0
        (HandlerOutcome.panics [] (PanicPayload.nonError "boom"))).sink
      = [panicEvent metaEx "panic: boom"]
    ∧ (LogHTTPRequest metaEx 0
        (HandlerOutcome.normal [WOp.writeHeader 204])).sink = [] :=
  ⟨((c6_amended_reporting_policy metaEx 0).1 []
      (PanicPayload.nonError "boom")).1,
   (c6_amended_reporting_policy metaEx 0).2.1 [WOp.writeHeader 204]⟩

/-- Claim C7 counterexample: at a recovered panic (payload "boom") the
captured status is forced to 500 and the panic is re-raised, but the
middleware emits no request log entry at all — the log-entry construction and
log output are skipped because the deferred recovery re-panics before they
run — so no log line with an error="panic: ..." clause exists, contrary to
the claim. -/
theorem c7_counterexample_no_log_entry_on_panic :
    (LogHTTPRequest metaEx 0
        (HandlerOutcome.panics [] (PanicPayload.nonError "boom"))).finalStatus
      = 500
    ∧ (LogHTTPRequest metaEx 0
        (HandlerOutcome.panics [] (PanicPayload.nonError "boom"))).repanic
      = some (PanicPayload.nonError "boom")
    ∧ (LogHTTPRequest metaEx 0
        (HandlerOutcome.panics [] (PanicPayload.nonError "boom"))).logEntries
      = [] :=
  ⟨rfl, rfl, rfl⟩

/-- Claim C7 (amended): on a recovered panic the middleware synthesizes an
error value — an error payload is used as-is, any other payload is wrapped
into an error reading "panic: " plus its description — reports exactly one
error-level sink event with the request context (method, URL, user-agent,
remote address), forces the captured status to 500 and re-raises the panic;
it emits no request log entry on this path. -/
theorem c7_amended_panic_handling (m : ReqMeta) (ns : Nat) (ops : List WOp)
    (payload : PanicPayload) :
    (LogHTTPRequest m ns (HandlerOutcome.panics ops payload)).sink
      = [panicEvent m (panicPayloadError payload)]
    ∧ (panicEvent m (panicPayloadError payload)).level = SinkLevel.lvlError
    ∧ (panicEvent m (panicPayloadError payload)).isException = true
    ∧ (panicEvent m (panicPayloadError payload)).requestContext
      = [ ("method", m.method), ("url", m.urlStr),
          ("user_agent", m.userAgent), ("remote_ip", m.remoteAddr) ]
    ∧ (∀ msg, panicPayloadError (PanicPayload.errPayload msg) = msg)
    ∧ (∀ desc,
        panicPayloadError (PanicPayload.nonError desc) = "panic: " ++ desc)
    ∧ (LogHTTPRequest m ns (HandlerOutcome.panics ops payload)).finalStatus
        = 500
    ∧ (LogHTTPRequest m ns (HandlerOutcome.panics ops payload)).repanic
        = some payload
    ∧ (LogHTTPRequest m ns (HandlerOutcome.panics ops payload)).logEntries
        = [] :=
  ⟨rfl, rfl, rfl, rfl, fun _ => rfl, fun _ => rfl, rfl, rfl, rfl⟩

end BinApi
